import Mathlib

/-!
Shallow embedding of the Zircon SDHCI driver (system/dev/block/sdhci/sdhci.c)
used to settle the specification claims.  Pure C functions become Lean
functions on Nat with explicit truncation modulo 2^32 where 32-bit overflow
matters; the interrupt-driven automaton becomes explicit state passing on a
device-state structure, with completion-callback invocations recorded in an
output list.  Register bit constants that live in headers outside the
repository snapshot (hw/sdmmc.h, ddk/protocol/sdmmc.h, ddk/protocol/sdhci.h)
are modelled from the spec with the standard SDHCI layout; no claim below
depends on their exact numeric values, only on the masks being the fixed
bit patterns the driver reads and writes.
-/

/-- Two to the 32, the truncation modulus of the 32-bit C arithmetic. -/
def U32 : Nat := 4294967296

/-- Source constant SD_FREQ_SETUP_HZ (sdhci.c line 38). -/
def SD_FREQ_SETUP_HZ : Nat := 400000

/-- Source constant MAX_TUNING_COUNT (sdhci.c line 40). -/
def MAX_TUNING_COUNT : Nat := 40

/-- Source constant ADMA2_DESC_MAX_LENGTH, 64 KiB (sdhci.c line 65). -/
def ADMA2_DESC_MAX_LENGTH : Nat := 65536

/-- Source constant DMA_DESC_COUNT (sdhci.c line 66). -/
def DMA_DESC_COUNT : Nat := 8192

/-- Capability bit SDHCI_CAP_BUS_WIDTH_8 (sdhci.c line 94). -/
def SDHCI_CAP_BUS_WIDTH_8 : Nat := 1

/-- Capability bit SDHCI_CAP_ADMA2 (sdhci.c line 95). -/
def SDHCI_CAP_ADMA2 : Nat := 2

/-- Capability bit SDHCI_CAP_64BIT (sdhci.c line 96). -/
def SDHCI_CAP_64BIT : Nat := 4

/-- Modelled from the spec: quirk bit from the missing ddk/protocol/sdhci.h
header; the "no DMA" quirk that disables ADMA2 selection. -/
def SDHCI_QUIRK_NO_DMA : Nat := 1

/-- Modelled from the spec: quirk bit from the missing ddk/protocol/sdhci.h
header; the "strip response CRC" quirk that selects the byte-shifted
136-bit response decode. -/
def SDHCI_QUIRK_STRIP_RESPONSE_CRC : Nat := 2

/-- Modelled from the spec: interrupt-status bit from the missing
hw/sdmmc.h header (standard SDHCI layout): command complete. -/
def SDHCI_IRQ_CMD_CPLT : Nat := 1

/-- Modelled from the spec: interrupt-status bit, transfer complete. -/
def SDHCI_IRQ_XFER_CPLT : Nat := 2

/-- Modelled from the spec: interrupt-status bit, buffer write ready. -/
def SDHCI_IRQ_BUFF_WRITE_READY : Nat := 16

/-- Modelled from the spec: interrupt-status bit, buffer read ready. -/
def SDHCI_IRQ_BUFF_READ_READY : Nat := 32

/-- Modelled from the spec: interrupt-status bit, generic error flag. -/
def SDHCI_IRQ_ERR : Nat := 32768

/-- Modelled from the spec: error-interrupt bit, command timeout. -/
def SDHCI_IRQ_ERR_CMD_TIMEOUT : Nat := 65536

/-- Modelled from the spec: error-interrupt bit, command CRC. -/
def SDHCI_IRQ_ERR_CMD_CRC : Nat := 131072

/-- Modelled from the spec: error-interrupt bit, command end bit. -/
def SDHCI_IRQ_ERR_CMD_END_BIT : Nat := 262144

/-- Modelled from the spec: error-interrupt bit, command index. -/
def SDHCI_IRQ_ERR_CMD_INDEX : Nat := 524288

/-- Modelled from the spec: error-interrupt bit, data timeout. -/
def SDHCI_IRQ_ERR_DAT_TIMEOUT : Nat := 1048576

/-- Modelled from the spec: error-interrupt bit, data CRC. -/
def SDHCI_IRQ_ERR_DAT_CRC : Nat := 2097152

/-- Modelled from the spec: error-interrupt bit, data end bit. -/
def SDHCI_IRQ_ERR_DAT_ENDBIT : Nat := 4194304

/-- Modelled from the spec: error-interrupt bit, current limit. -/
def SDHCI_IRQ_ERR_CURRENT_LIMIT : Nat := 8388608

/-- Modelled from the spec: error-interrupt bit, auto command. -/
def SDHCI_IRQ_ERR_AUTO_CMD : Nat := 16777216

/-- Modelled from the spec: error-interrupt bit, ADMA. -/
def SDHCI_IRQ_ERR_ADMA : Nat := 33554432

/-- Modelled from the spec: error-interrupt bit, tuning. -/
def SDHCI_IRQ_ERR_TUNING : Nat := 67108864

/-- The error interrupt mask exactly as built in sdhci.c lines 109-122. -/
def error_interrupts : Nat :=
  SDHCI_IRQ_ERR |||
  SDHCI_IRQ_ERR_CMD_TIMEOUT |||
  SDHCI_IRQ_ERR_CMD_CRC |||
  SDHCI_IRQ_ERR_CMD_END_BIT |||
  SDHCI_IRQ_ERR_CMD_INDEX |||
  SDHCI_IRQ_ERR_DAT_TIMEOUT |||
  SDHCI_IRQ_ERR_DAT_CRC |||
  SDHCI_IRQ_ERR_DAT_ENDBIT |||
  SDHCI_IRQ_ERR_CURRENT_LIMIT |||
  SDHCI_IRQ_ERR_AUTO_CMD |||
  SDHCI_IRQ_ERR_ADMA |||
  SDHCI_IRQ_ERR_TUNING

/-- The normal interrupt mask exactly as built in sdhci.c lines 125-130. -/
def normal_interrupts : Nat :=
  SDHCI_IRQ_CMD_CPLT |||
  SDHCI_IRQ_XFER_CPLT |||
  SDHCI_IRQ_BUFF_READ_READY |||
  SDHCI_IRQ_BUFF_WRITE_READY

/-- Modelled from the spec: present-state register bit, command inhibit. -/
def SDHCI_STATE_CMD_INHIBIT : Nat := 1

/-- Modelled from the spec: present-state register bit, data inhibit. -/
def SDHCI_STATE_DAT_INHIBIT : Nat := 2

/-- Modelled from the spec: ctrl1 bit, internal clock enable. -/
def SDHCI_INTERNAL_CLOCK_ENABLE : Nat := 1

/-- Modelled from the spec: ctrl1 bit, internal clock stable. -/
def SDHCI_INTERNAL_CLOCK_STABLE : Nat := 2

/-- Modelled from the spec: ctrl1 bit, SD clock enable. -/
def SDHCI_SD_CLOCK_ENABLE : Nat := 4

/-- Modelled from the spec: ctrl1 bit, software reset for all circuits. -/
def SDHCI_SOFTWARE_RESET_ALL : Nat := 16777216

/-- Modelled from the spec: ctrl1 bit, software reset of the command line. -/
def SDHCI_SOFTWARE_RESET_CMD : Nat := 33554432

/-- Modelled from the spec: ctrl1 bit, software reset of the data lines. -/
def SDHCI_SOFTWARE_RESET_DAT : Nat := 67108864

/-- Modelled from the spec: ctrl0 (host control 1) bit, 8-bit extended
data width. -/
def SDHCI_HOSTCTRL_EXT_DATA_WIDTH : Nat := 32

/-- Modelled from the spec: ctrl0 bit, 4-bit bus width. -/
def SDHCI_HOSTCTRL_FOUR_BIT_BUS_WIDTH : Nat := 2

/-- Modelled from the spec: ctrl0 bit, high speed enable. -/
def SDHCI_HOSTCTRL_HIGHSPEED_ENABLE : Nat := 4

/-- Modelled from the spec: ctrl0 field, select ADMA2 with 64-bit
descriptors. -/
def SDHCI_HOSTCTRL_DMA_SELECT_ADMA2 : Nat := 24

/-- Modelled from the spec: ctrl0 (power control) bit, SD bus power. -/
def SDHCI_PWRCTRL_SD_BUS_POWER : Nat := 256

/-- Modelled from the spec: ctrl0 field, SD bus voltage select 3.3 V. -/
def SDHCI_PWRCTRL_SD_BUS_VOLTAGE_3P3V : Nat := 3584

/-- Modelled from the spec: ctrl0 field, SD bus voltage select 3.0 V. -/
def SDHCI_PWRCTRL_SD_BUS_VOLTAGE_3P0V : Nat := 3072

/-- Modelled from the spec: ctrl0 field, SD bus voltage select 1.8 V. -/
def SDHCI_PWRCTRL_SD_BUS_VOLTAGE_1P8V : Nat := 2560

/-- Modelled from the spec: ctrl2 (host control 2) bit, 1.8 V signalling
enable. -/
def SDHCI_HOSTCTRL2_1P8V_SIGNALLING_ENA : Nat := 524288

/-- Modelled from the spec: ctrl2 bit, execute tuning. -/
def SDHCI_HOSTCTRL2_EXEC_TUNING : Nat := 4194304

/-- Modelled from the spec: ctrl2 bit, sampling (tuned) clock select. -/
def SDHCI_HOSTCTRL2_CLOCK_SELECT : Nat := 8388608

/-- Modelled from the spec: command-word flag from the missing sdmmc
protocol header, response length 136 bits. -/
def SDMMC_RESP_LEN_136 : Nat := 65536

/-- Modelled from the spec: command-word flag, response length 48 bits. -/
def SDMMC_RESP_LEN_48 : Nat := 131072

/-- Modelled from the spec: command-word flag, response length 48 bits
with busy. -/
def SDMMC_RESP_LEN_48B : Nat := 196608

/-- Modelled from the spec: command-word flag, command has a data phase. -/
def SDMMC_RESP_DATA_PRESENT : Nat := 2097152

/-- Modelled from the spec: command-word field, abort command type. -/
def SDMMC_CMD_TYPE_ABORT : Nat := 12582912

/-- Modelled from the spec: transfer-mode flag, read direction. -/
def SDMMC_CMD_READ : Nat := 16

/-- Modelled from the spec: transfer-mode flag, multi-block transfer. -/
def SDMMC_CMD_MULTI_BLK : Nat := 32

/-- Modelled from the spec: transfer-mode flag, auto CMD12 enable. -/
def SDMMC_CMD_AUTO12 : Nat := 4

/-- Modelled from the spec: transfer-mode flag, DMA enable. -/
def SDHCI_XFERMODE_DMA_ENABLE : Nat := 1

/-- Modelled from the spec: the full command word of the MMC send-tuning-
block command (command index 21 with a 48-bit response). -/
def MMC_SEND_TUNING_BLOCK : Nat := 352321536 ||| SDMMC_RESP_LEN_48

/-- Modelled from the spec: voltage code for 3.3 V from the missing sdmmc
protocol header enum. -/
def SDMMC_VOLTAGE_330 : Nat := 0

/-- Modelled from the spec: voltage code for 1.8 V. -/
def SDMMC_VOLTAGE_180 : Nat := 1

/-- Modelled from the spec: first invalid voltage code (enum bound). -/
def SDMMC_VOLTAGE_MAX : Nat := 2

/-- Zircon status codes used by the driver, as an enumeration.
ZX_ERR_SHOULD_WAIT is the busy/retry signal of the spec. -/
inductive ZxStatus where
  | ok
  | invalidArgs
  | notSupported
  | shouldWait
  | timedOut
  | internal
  | ioError
  deriving DecidableEq, Repr

/-- One physical segment yielded by the iotxn physical iterator: a byte
length and a physical address. -/
structure Seg where
  len : Nat
  paddr : Nat
  deriving DecidableEq, Repr

/-- One ADMA2 64-bit descriptor, the fields of sdhci_adma64_desc_t.  The
16-bit length field len16 encodes 65536 as 0. -/
structure Desc where
  valid : Bool
  endFlag : Bool
  intr : Bool
  act1 : Bool
  act2 : Bool
  len16 : Nat
  address : Nat
  deriving DecidableEq, Repr

/-- The descriptor written for one segment (sdhci.c lines 434-438):
attr cleared, then valid and act2 set; length truncated to 16 bits. -/
def mk_adma_desc (s : Seg) : Desc :=
  { valid := true, endFlag := false, intr := false, act1 := false,
    act2 := true, len16 := s.len % 65536, address := s.paddr }

/-- Sets the end-of-chain flag on the last descriptor of a list, the
effect of desc -= 1; desc->end = 1 in sdhci.c line 416-417. -/
def set_end_flag_on_last : List Desc → List Desc
  | [] => []
  | [d] => [{ d with endFlag := true }]
  | d :: rest => d :: set_end_flag_on_last rest

/-- The descriptor-building loop of sdhci_start_req_locked (sdhci.c lines
408-440) over the list of segments the physical iterator yields.  A
zero-length segment is the iterator termination signal.  Returns the
status together with the descriptor-table contents written so far. -/
def adma_build_loop : List Seg → Nat → List Desc → ZxStatus × List Desc
  | [], _, acc =>
      if acc.isEmpty then (ZxStatus.notSupported, acc)
      else (ZxStatus.ok, set_end_flag_on_last acc)
  | s :: rest, count, acc =>
      if s.len = 0 then
        if acc.isEmpty then (ZxStatus.notSupported, acc)
        else (ZxStatus.ok, set_end_flag_on_last acc)
      else if ADMA2_DESC_MAX_LENGTH < s.len then (ZxStatus.notSupported, acc)
      else if DMA_DESC_COUNT < count + 1 then (ZxStatus.notSupported, acc)
      else adma_build_loop rest (count + 1) (acc ++ [mk_adma_desc s])

/-- The DMA descriptor builder: the loop started with count 0 and an empty
table prefix. -/
def adma_build (segs : List Seg) : ZxStatus × List Desc :=
  adma_build_loop segs 0 []

/-- The byte length a descriptor stands for: the 16-bit field with 0
encoding 65536. -/
def desc_bytes (d : Desc) : Nat :=
  if d.len16 = 0 then 65536 else d.len16

/-- Total bytes covered by a descriptor list. -/
def descs_bytes (l : List Desc) : Nat :=
  (l.map desc_bytes).sum

/-- Total bytes of a segment list. -/
def segs_bytes (l : List Seg) : Nat :=
  (l.map Seg.len).sum

/-- get_clock_divider (sdhci.c lines 288-302) with the 32-bit unsigned
truncation of the C arithmetic made explicit.  When 2 * target_rate
overflows to 0 the C division is undefined behaviour; Nat division by
zero yields 0 here. -/
def get_clock_divider (base_clock target_rate : Nat) : Nat :=
  if base_clock ≤ target_rate then 0
  else
    let result := base_clock / (2 * target_rate % U32)
    if result * target_rate % U32 * 2 % U32 < base_clock then result + 1
    else result

/-- The 136-bit response decode of sdhci_cmd_stage_complete_locked
(sdhci.c lines 178-189), quirk and plain variants, over the four response
registers.  Shifts are truncated to 32 bits as in the C. -/
def decode_response_136 (strip : Bool) (r0 r1 r2 r3 : Nat) : List Nat :=
  if strip then
    [(r3 <<< 8 % U32) ||| ((r2 >>> 24) &&& 255),
     (r2 <<< 8 % U32) ||| ((r1 >>> 24) &&& 255),
     (r1 <<< 8 % U32) ||| ((r0 >>> 24) &&& 255),
     r0 <<< 8 % U32]
  else [r0, r1, r2, r3]

/-- Follows the words of the spec for claim C6: each word of the non-quirk
decode shifted left by 8 bits, importing the top byte of the previous word
of the same decode; word i is word i of the 128-bit register value shifted
left by 8 bits, in the same word order as the non-quirk decode. -/
def decode_response_136_spec_shift (r0 r1 r2 r3 : Nat) : List Nat :=
  [r0 <<< 8 % U32,
   (r1 <<< 8 % U32) ||| ((r0 >>> 24) &&& 255),
   (r2 <<< 8 % U32) ||| ((r1 >>> 24) &&& 255),
   (r3 <<< 8 % U32) ||| ((r2 >>> 24) &&& 255)]

/-- The caller-owned iotxn attached to a request: requested byte length,
accumulated transferred bytes, recorded status, the physical-segment
sequence its physical iterator yields at the 64 KiB chunk size, and its
(single) physical address for the non-DMA path. -/
structure Txn where
  length : Nat
  actual : Nat
  status : ZxStatus
  segs : List Seg
  phys : Nat
  deriving DecidableEq, Repr

/-- One sdmmc request: command word, argument, block geometry, the
monotone block-index cursor, the up-to-4-word response buffer, and the
optional attached iotxn. -/
structure Req where
  cmd : Nat
  arg : Nat
  blockcount : Nat
  blocksize : Nat
  blockid : Nat
  response : List Nat
  txn : Option Txn
  deriving DecidableEq, Repr

/-- The memory-mapped register block, the fields of sdhci_regs_t the
driver touches. -/
structure Regs where
  irq : Nat
  irqmsk : Nat
  irqen : Nat
  state : Nat
  arg1 : Nat
  arg2 : Nat
  blkcntsiz : Nat
  cmdReg : Nat
  ctrl0 : Nat
  ctrl1 : Nat
  ctrl2 : Nat
  resp0 : Nat
  resp1 : Nat
  resp2 : Nat
  resp3 : Nat
  admaaddr0 : Nat
  admaaddr1 : Nat
  deriving DecidableEq, Repr

/-- The controller state sdhci_device_t: registers, the nullable current
request, capability and quirk bitsets, the descriptor-table contents, the
physical address of the descriptor io-buffer, and the cached base clock. -/
structure Dev where
  regs : Regs
  req : Option Req
  caps : Nat
  quirks : Nat
  descs : List Desc
  iobufPhys : Nat
  base_clock : Nat
  deriving DecidableEq, Repr

/-- sdhci_supports_adma2_64bit (sdhci.c lines 132-136). -/
def sdhci_supports_adma2_64bit (dev : Dev) : Bool :=
  dev.caps &&& SDHCI_CAP_ADMA2 ≠ 0 ∧
  dev.caps &&& SDHCI_CAP_64BIT ≠ 0 ∧
  dev.quirks &&& SDHCI_QUIRK_NO_DMA = 0

/-- Which call site invoked the completion callback.  This tag is
specification instrumentation only: it labels the five call sites of
sdhci_complete_request_locked so theorems can speak about the path a
completion came from; it changes no behaviour. -/
inductive CompletionSource where
  | cmdStage
  | readStage
  | writeStage
  | xferStage
  | errRecovery
  deriving DecidableEq, Repr

/-- One recorded invocation of a request completion callback: the call
site, the request as handed to the callback, and the status and byte
count arguments. -/
structure Completion where
  src : CompletionSource
  req : Req
  status : ZxStatus
  actual : Nat
  deriving DecidableEq, Repr

/-- The txn field updates performed by sdhci_complete_request_locked
before invoking the callback: txn->status and txn->actual are written
when a txn is attached. -/
def mark_request_complete (r : Req) (status : ZxStatus) (actual : Nat) : Req :=
  match r.txn with
  | some t => { r with txn := some { t with status := status, actual := actual } }
  | none => r

/-- sdhci_complete_request_locked (sdhci.c lines 152-165): disables
interrupt generation, records status and actual in the txn, clears the
in-flight reference and invokes the completion callback.  Every call site
holds a non-null in-flight request; the none branch is dead. -/
def sdhci_complete_request_locked (dev : Dev) (src : CompletionSource)
    (status : ZxStatus) (actual : Nat) : Dev × List Completion :=
  match dev.req with
  | none => (dev, [])
  | some r =>
      ({ dev with regs := { dev.regs with irqen := 0 }, req := none },
       [⟨src, mark_request_complete r status actual, status, actual⟩])

/-- sdhci_cmd_stage_complete_locked (sdhci.c lines 167-214): decode the
response into the request, then either complete (no data phase) or arm
the next-phase interrupt. -/
def sdhci_cmd_stage_complete_locked (dev : Dev) : Dev × List Completion :=
  match dev.req with
  | none => (dev, [])
  | some r =>
      let cmd := r.cmd
      let resp :=
        if cmd &&& SDMMC_RESP_LEN_136 ≠ 0 then
          decode_response_136 (dev.quirks &&& SDHCI_QUIRK_STRIP_RESPONSE_CRC ≠ 0)
            dev.regs.resp0 dev.regs.resp1 dev.regs.resp2 dev.regs.resp3
        else if cmd &&& (SDMMC_RESP_LEN_48 ||| SDMMC_RESP_LEN_48B) ≠ 0 then
          dev.regs.resp0 :: dev.regs.resp1 :: r.response.drop 2
        else r.response
      let r := { r with response := resp }
      let dev := { dev with req := some r }
      if cmd &&& SDMMC_RESP_DATA_PRESENT ≠ 0 then
        let en :=
          if sdhci_supports_adma2_64bit dev then
            error_interrupts ||| SDHCI_IRQ_XFER_CPLT
          else if cmd &&& SDMMC_CMD_READ ≠ 0 then
            error_interrupts ||| SDHCI_IRQ_BUFF_READ_READY
          else
            error_interrupts ||| SDHCI_IRQ_BUFF_WRITE_READY
        ({ dev with regs := { dev.regs with irqen := en } }, [])
      else
        sdhci_complete_request_locked dev CompletionSource.cmdStage ZxStatus.ok 0

/-- Number of 4-byte PIO words a data-stage handler moves for one block:
the loop runs for byteid 0, 4, ... below blocksize. -/
def pio_words (blocksize : Nat) : Nat :=
  (blocksize + 3) / 4

/-- sdhci_data_stage_read_ready_locked (sdhci.c lines 216-240): unless
the command is the tuning block (whose data is discarded), copy one block
from the data register into the txn, advance the transferred count and
the block index; complete when the index reaches the block count.  The
copied byte values land in the caller-owned buffer, outside this state
model; only the transferred count is tracked. -/
def sdhci_data_stage_read_ready_locked (dev : Dev) : Dev × List Completion :=
  match dev.req with
  | none => (dev, [])
  | some r =>
      let r :=
        if r.cmd = MMC_SEND_TUNING_BLOCK then r
        else
          { r with
            blockid := r.blockid + 1,
            txn := match r.txn with
              | some t => some { t with actual := t.actual + 4 * pio_words r.blocksize }
              | none => none }
      let dev := { dev with req := some r }
      if r.blockid = r.blockcount then
        sdhci_complete_request_locked dev CompletionSource.readStage ZxStatus.ok
          (match r.txn with | some t => t.actual | none => 0)
      else (dev, [])

/-- sdhci_data_stage_write_ready_locked (sdhci.c lines 242-263): copy one
block from the txn into the data register, advance the transferred count
and the block index; complete when the index reaches the block count. -/
def sdhci_data_stage_write_ready_locked (dev : Dev) : Dev × List Completion :=
  match dev.req with
  | none => (dev, [])
  | some r =>
      let r :=
        { r with
          blockid := r.blockid + 1,
          txn := match r.txn with
            | some t => some { t with actual := t.actual + 4 * pio_words r.blocksize }
            | none => none }
      let dev := { dev with req := some r }
      if r.blockid = r.blockcount then
        sdhci_complete_request_locked dev CompletionSource.writeStage ZxStatus.ok
          (match r.txn with | some t => t.actual | none => 0)
      else (dev, [])

/-- sdhci_transfer_complete_locked (sdhci.c lines 265-271): complete the
in-flight request with the full requested txn length (the source line
reads the length through the current-request field). -/
def sdhci_transfer_complete_locked (dev : Dev) : Dev × List Completion :=
  match dev.req with
  | none => (dev, [])
  | some r =>
      sdhci_complete_request_locked dev CompletionSource.xferStage ZxStatus.ok
        (match r.txn with | some t => t.length | none => 0)

/-- sdhci_error_recovery_locked (sdhci.c lines 273-286): set the command
and data software-reset bits (the bounded waits return timeouts that the
code discards, so they leave no trace in this state model), then complete
any in-flight request with an I/O error and zero bytes. -/
def sdhci_error_recovery_locked (dev : Dev) : Dev × List Completion :=
  let dev :=
    { dev with regs :=
      { dev.regs with ctrl1 :=
          dev.regs.ctrl1 ||| SDHCI_SOFTWARE_RESET_CMD ||| SDHCI_SOFTWARE_RESET_DAT } }
  match dev.req with
  | none => (dev, [])
  | some _ =>
      sdhci_complete_request_locked dev CompletionSource.errRecovery ZxStatus.ioError 0

/-- The per-interrupt body of sdhci_irq_thread (sdhci.c lines 317-346):
acknowledge the stashed bits, then dispatch to the stage handlers in
source order.  Appends are written left-associated to mirror the order
completions are emitted. -/
def sdhci_irq_step (dev : Dev) (irq : Nat) : Dev × List Completion :=
  let d0 := { dev with regs := { dev.regs with irq := 0 } }
  let p1 := if irq &&& SDHCI_IRQ_CMD_CPLT ≠ 0 then
              sdhci_cmd_stage_complete_locked d0 else (d0, [])
  let p2 := if irq &&& SDHCI_IRQ_BUFF_READ_READY ≠ 0 then
              sdhci_data_stage_read_ready_locked p1.1 else (p1.1, [])
  let p3 := if irq &&& SDHCI_IRQ_BUFF_WRITE_READY ≠ 0 then
              sdhci_data_stage_write_ready_locked p2.1 else (p2.1, [])
  let p4 := if irq &&& SDHCI_IRQ_XFER_CPLT ≠ 0 then
              sdhci_transfer_complete_locked p3.1 else (p3.1, [])
  let p5 := if irq &&& error_interrupts ≠ 0 then
              sdhci_error_recovery_locked p4.1 else (p4.1, [])
  (p5.1, (((p1.2 ++ p2.2) ++ p3.2) ++ p4.2) ++ p5.2)

/-- The interrupt thread over a finite sequence of interrupt words: one
sdhci_irq_step per delivered event, completions concatenated in order. -/
def sdhci_irq_run (dev : Dev) : List Nat → Dev × List Completion
  | [] => (dev, [])
  | e :: es =>
      let p := sdhci_irq_step dev e
      let q := sdhci_irq_run p.1 es
      (q.1, p.2 ++ q.2)

/-- The bits of C `x & ~m` on a 32-bit register: clear the mask bits. -/
def bic32 (x m : Nat) : Nat :=
  x &&& (4294967295 ^^^ m)

/-- The inhibit mask sdhci_start_req_locked waits on (sdhci.c lines
376-384): command inhibit always, data inhibit additionally for busy-type
(48-with-busy) commands that are not abort commands. -/
def inhibit_mask_for (cmd : Nat) : Nat :=
  SDHCI_STATE_CMD_INHIBIT |||
  (if cmd &&& SDMMC_RESP_LEN_48B = SDMMC_RESP_LEN_48B ∧
      cmd &&& SDMMC_CMD_TYPE_ABORT = 0
   then SDHCI_STATE_DAT_INHIBIT else 0)

/-- sdhci_start_req_locked (sdhci.c lines 354-488) over a static
present-state register.  The unbounded inhibit spin (lines 387-389)
never exits when the static state register keeps an inhibit bit set, so
the result is an Option: none models the spin never returning.  The
iotxn physmap and cache maintenance act on the caller buffer outside
this state and are modelled as succeeding.  Note the in-flight reference
is recorded first and is not cleared on any failing path. -/
def sdhci_start_req_locked (dev : Dev) (req : Req) : Option (ZxStatus × Dev) :=
  let dev := { dev with req := some req }
  let cmd := req.cmd
  let has_data := cmd &&& SDMMC_RESP_DATA_PRESENT ≠ 0
  if has_data ∧ req.txn.isNone then some (ZxStatus.invalidArgs, dev)
  else if dev.regs.state &&& inhibit_mask_for cmd ≠ 0 then none
  else
    let use_dma := sdhci_supports_adma2_64bit dev
    let staged : ZxStatus × Dev × Nat :=
      if has_data then
        match req.txn with
        | none => (ZxStatus.invalidArgs, dev, cmd)
        | some t =>
            let dataRes : ZxStatus × Dev × Nat :=
              if use_dma then
                let built := adma_build t.segs
                let dev := { dev with descs := built.2 }
                if built.1 ≠ ZxStatus.ok then (built.1, dev, cmd)
                else
                  (ZxStatus.ok,
                   { dev with regs := { dev.regs with
                       admaaddr0 := dev.iobufPhys % U32,
                       admaaddr1 := (dev.iobufPhys >>> 32) % U32 } },
                   cmd ||| SDHCI_XFERMODE_DMA_ENABLE)
              else
                (ZxStatus.ok,
                 { dev with regs := { dev.regs with arg2 := t.phys } }, cmd)
            if dataRes.1 ≠ ZxStatus.ok then dataRes
            else if dataRes.2.2 &&& SDMMC_CMD_MULTI_BLK ≠ 0 then
              (dataRes.1, dataRes.2.1, dataRes.2.2 ||| SDMMC_CMD_AUTO12)
            else dataRes
      else if cmd = MMC_SEND_TUNING_BLOCK then
        (ZxStatus.ok, dev, cmd ||| SDMMC_RESP_DATA_PRESENT ||| SDMMC_CMD_READ)
      else (ZxStatus.ok, dev, cmd)
    if staged.1 ≠ ZxStatus.ok then some (staged.1, staged.2.1)
    else
      let dev := staged.2.1
      let regs := dev.regs
      let regs := { regs with blkcntsiz := req.blocksize ||| (req.blockcount <<< 16) }
      let regs := { regs with arg1 := req.arg }
      let regs := { regs with irqmsk := error_interrupts ||| normal_interrupts }
      let regs := { regs with irqen := error_interrupts |||
          (if req.cmd = MMC_SEND_TUNING_BLOCK then SDHCI_IRQ_BUFF_READ_READY
           else SDHCI_IRQ_CMD_CPLT) }
      let regs := { regs with irq := 0 }
      let regs := { regs with cmdReg := staged.2.2 }
      some (ZxStatus.ok, { dev with regs := regs })

/-- sdhci_request (sdhci.c lines 709-725): one command at a time; a
second submit while one request is in flight returns the busy signal
ZX_ERR_SHOULD_WAIT without touching the controller state. -/
def sdhci_request (dev : Dev) (req : Req) : Option (ZxStatus × Dev) :=
  if dev.req.isSome then some (ZxStatus.shouldWait, dev)
  else sdhci_start_req_locked dev req

/-- Fuel-indexed view of the unbounded inhibit spin of
sdhci_start_req_locked (lines 387-389) over a trace of present-state
readings, reading index idx first: some idx when reading idx clears the
mask, none when the fuel runs out with the loop still spinning.  The
codomain has no timeout value because the loop has no timeout arm. -/
def submit_inhibit_wait (readings : Nat → Nat) (mask : Nat) : Nat → Nat → Option Nat
  | _, 0 => none
  | idx, fuel + 1 =>
      if readings idx &&& mask = 0 then some idx
      else submit_inhibit_wait readings mask (idx + 1) fuel

/-- The bounded inhibit wait of sdhci_set_bus_freq (lines 601-608) over a
trace of present-state readings: remaining counts the 1 ms sleeps still
allowed (1000 at entry), and the loop times out (none) when a reading
still shows an inhibit bit with no sleeps left. -/
def freq_inhibit_wait (readings : Nat → Nat) : Nat → Nat → Option Nat
  | idx, remaining =>
      if readings idx &&& (SDHCI_STATE_CMD_INHIBIT ||| SDHCI_STATE_DAT_INHIBIT) = 0 then
        some idx
      else
        match remaining with
        | 0 => none
        | r + 1 => freq_inhibit_wait readings (idx + 1) r

/-- sdhci_set_bus_freq (sdhci.c lines 589-628) over a trace of
present-state readings and the ctrl1 register value: divider computed up
front, then the bounded inhibit wait (timeout leaves ctrl1 untouched),
then clock disable, divider field rewrite and clock re-enable. -/
def sdhci_set_bus_freq (base_clock bus_freq : Nat) (stateReadings : Nat → Nat)
    (ctrl1 : Nat) : ZxStatus × Nat :=
  let divider := get_clock_divider base_clock bus_freq
  let divider_lo := divider &&& 255
  let divider_hi := (divider >>> 8) &&& 3
  match freq_inhibit_wait stateReadings 0 1000 with
  | none => (ZxStatus.timedOut, ctrl1)
  | some _ =>
      let c1 := bic32 ctrl1 SDHCI_SD_CLOCK_ENABLE
      let c1 := bic32 c1 65504 ||| ((divider_lo <<< 8) ||| (divider_hi <<< 6))
      (ZxStatus.ok, c1 ||| SDHCI_SD_CLOCK_ENABLE)

/-- Verification tail of sdhci_set_signal_voltage (sdhci.c lines
529-545): check the bus-power and voltage-select bits, then re-enable
the SD clock.  The third component lists the sleeps performed, in
milliseconds. -/
def sdhci_set_signal_voltage_verify (voltage : Nat) (regs : Regs) :
    ZxStatus × Regs × List Nat :=
  let expected := SDHCI_PWRCTRL_SD_BUS_POWER |||
    (if voltage = SDMMC_VOLTAGE_180 then SDHCI_PWRCTRL_SD_BUS_VOLTAGE_1P8V
     else SDHCI_PWRCTRL_SD_BUS_VOLTAGE_3P3V)
  if regs.ctrl0 &&& expected ≠ expected then (ZxStatus.internal, regs, [2, 5])
  else
    (ZxStatus.ok,
     { regs with ctrl1 := regs.ctrl1 ||| SDHCI_SD_CLOCK_ENABLE }, [2, 5, 2])

/-- sdhci_set_signal_voltage (sdhci.c lines 490-550): reject unknown
voltage codes, disable the SD clock, toggle the 1.8 V signalling enable
bit, wait 5 ms, optionally (under trace logging) re-read the bit, verify
the power-control bits, re-enable the clock.  Register reads return the
values last written (no concurrent hardware mutation in this model). -/
def sdhci_set_signal_voltage (voltage : Nat) (trace : Bool) (regs : Regs) :
    ZxStatus × Regs × List Nat :=
  if SDMMC_VOLTAGE_MAX ≤ voltage then (ZxStatus.invalidArgs, regs, [])
  else
    let regs := { regs with ctrl1 := bic32 regs.ctrl1 SDHCI_SD_CLOCK_ENABLE }
    if voltage = SDMMC_VOLTAGE_180 then
      let c2a := regs.ctrl2 ||| SDHCI_HOSTCTRL2_1P8V_SIGNALLING_ENA
      let regs := { regs with ctrl2 := c2a }
      if trace ∧ regs.ctrl2 &&& SDHCI_HOSTCTRL2_1P8V_SIGNALLING_ENA = 0 then
        (ZxStatus.internal, regs, [2, 5])
      else sdhci_set_signal_voltage_verify voltage regs
    else
      let c2b := bic32 regs.ctrl2 SDHCI_HOSTCTRL2_1P8V_SIGNALLING_ENA
      let regs := { regs with ctrl2 := c2b }
      if trace ∧ regs.ctrl2 &&& SDHCI_HOSTCTRL2_1P8V_SIGNALLING_ENA ≠ 0 then
        (ZxStatus.internal, regs, [2, 5])
      else sdhci_set_signal_voltage_verify voltage regs

/-- The tuning request sdhci_perform_tuning builds (sdhci.c lines
681-692): tuning-block command, argument 0, zero block count, block size
128 on an 8-bit bus and 64 otherwise, attached to the zero-length iotxn
it allocates. -/
def mk_tuning_request (ctrl0 : Nat) : Req :=
  { cmd := MMC_SEND_TUNING_BLOCK, arg := 0, blockcount := 0,
    blocksize := if ctrl0 &&& SDHCI_HOSTCTRL_EXT_DATA_WIDTH ≠ 0 then 128 else 64,
    blockid := 0, response := [0, 0, 0, 0],
    txn := some { length := 0, actual := 0, status := ZxStatus.ok, segs := [], phys := 0 } }

/-- The do-while resubmission loop of sdhci_perform_tuning (sdhci.c
lines 696-698).  hw gives the ctrl2 value observed after the i-th
iotxn_queue call (the hardware side of each tuning round); remaining
counts how many more rounds the count++ < MAX_TUNING_COUNT guard allows.
Returns the final ctrl2 reading and the number of queue calls made. -/
def tuning_do_loop (hw : Nat → Nat → Nat) : Nat → Nat → Nat → Nat × Nat
  | qIdx, c2, remaining =>
      let c2 := hw qIdx c2 % U32
      if c2 &&& SDHCI_HOSTCTRL2_EXEC_TUNING ≠ 0 then
        match remaining with
        | 0 => (c2, qIdx + 1)
        | r + 1 => tuning_do_loop hw (qIdx + 1) c2 r
      else (c2, qIdx + 1)

/-- sdhci_perform_tuning (sdhci.c lines 674-707): build the tuning
request, set the execute-tuning bit, run the resubmission loop, then
succeed exactly when execute-tuning has cleared and the tuned-clock
select bit is set; fail with an I/O error otherwise.  Returns the built
request, the status, the final ctrl2 reading and the number of
submissions. -/
def sdhci_perform_tuning (hw : Nat → Nat → Nat) (ctrl0 ctrl2 : Nat) :
    Req × ZxStatus × Nat × Nat :=
  let tuneReq := mk_tuning_request ctrl0
  let c2 := ctrl2 ||| SDHCI_HOSTCTRL2_EXEC_TUNING
  let loopRes := tuning_do_loop hw 0 c2 MAX_TUNING_COUNT
  let c2f := loopRes.1
  if c2f &&& SDHCI_HOSTCTRL2_EXEC_TUNING ≠ 0 ∨
     c2f &&& SDHCI_HOSTCTRL2_CLOCK_SELECT = 0 then
    (tuneReq, ZxStatus.ioError, c2f, loopRes.2)
  else (tuneReq, ZxStatus.ok, c2f, loopRes.2)

/-- The in-flight invariant of the transfer automaton: whenever a request
is recorded, its block cursor is strictly below its block count.  It
holds at submission (cursor 0, positive count) and is preserved by every
interrupt, because the data-stage handlers complete the request the
moment the cursor reaches the count. -/
def InvD (d : Dev) : Prop :=
  ∀ r, d.req = some r → r.blockid < r.blockcount

/-- The shape every recorded completion has: data-stage completions are
successful with the block cursor equal to the block count, command-stage
completions are successful zero-byte completions of no-data commands,
and error-recovery completions carry the I/O error with zero bytes. -/
def ShapeOK (c : Completion) : Prop :=
  ((c.src = CompletionSource.readStage ∨ c.src = CompletionSource.writeStage) →
    c.status = ZxStatus.ok ∧ c.req.blockid = c.req.blockcount) ∧
  (c.src = CompletionSource.cmdStage →
    c.status = ZxStatus.ok ∧ c.actual = 0 ∧
    c.req.cmd &&& SDMMC_RESP_DATA_PRESENT = 0) ∧
  (c.src = CompletionSource.errRecovery →
    c.status = ZxStatus.ioError ∧ c.actual = 0)

/-- The invariant package carried through the interrupt automaton, for a
result pair p reached from a starting state d0: a spurious start stays
spurious and silent, a completion clears the in-flight reference, at
most one completion is emitted, the in-flight invariant is preserved,
and every emitted completion is well shaped. -/
def POK (d0 : Dev) (p : Dev × List Completion) : Prop :=
  (d0.req = none → p.2 = [] ∧ p.1.req = none) ∧
  (p.2 ≠ [] → p.1.req = none) ∧
  p.2.length ≤ 1 ∧
  (InvD d0 → InvD p.1) ∧
  (∀ c ∈ p.2, ShapeOK c)

/-- Helper: the divider the code computes, named for use in the proofs
below; q is the truncating quotient of the claimed ceiling division. -/
lemma get_clock_divider_eq_if (b t : Nat) (hb : b < U32) (ht : t < 2147483648)
    (ht0 : 0 < t) (htb : t < b) :
    get_clock_divider b t =
      if b / (2 * t) * t * 2 < b then b / (2 * t) + 1 else b / (2 * t) := by
  have hmod : 2 * t % U32 = 2 * t := Nat.mod_eq_of_lt (by unfold U32; omega)
  have h2t : 0 < 2 * t := by omega
  have hq : b / (2 * t) * (2 * t) ≤ b := Nat.div_mul_le_self b (2 * t)
  have hX2 : b / (2 * t) * t * 2 ≤ b := by
    calc b / (2 * t) * t * 2 = b / (2 * t) * (2 * t) := by ring
    _ ≤ b := hq
  have hX : b / (2 * t) * t ≤ b := by omega
  have hm1 : b / (2 * t) * t % U32 = b / (2 * t) * t :=
    Nat.mod_eq_of_lt (by omega)
  simp only [get_clock_divider, if_neg (by omega : ¬ b ≤ t), hmod, hm1,
    Nat.mod_eq_of_lt (show b / (2 * t) * t * 2 < U32 by omega)]

/-- Claim C2, counterexample: at base clock 4294967295 and target rate
2147483649 (both representable 32-bit values, target below base), the
32-bit truncation inside get_clock_divider makes the result 2147483648,
not the ceiling of base over twice the target, which is 1.  The claim
quantifies over every base and target, so it fails here. -/
theorem get_clock_divider_overflow_counterexample :
    get_clock_divider 4294967295 2147483649 ≠
      (4294967295 + (2 * 2147483649 - 1)) / (2 * 2147483649) := by decide

/-- Claim C2, amended: restricted to target rates below two to the 31, so
that 2 * target_rate does not overflow 32 bits, get_clock_divider returns
0 when target_rate is at least base_clock, and otherwise the exact
ceiling of base_clock over 2 * target_rate, which is the smallest d with
base_clock at most d * target_rate * 2; the divider for a 50 MHz base
clock and a 400 kHz target is 63. -/
theorem get_clock_divider_spec (b t : Nat) (hb : b < 4294967296)
    (ht : t < 2147483648) :
    (b ≤ t → get_clock_divider b t = 0) ∧
    (0 < t → t < b →
      get_clock_divider b t = (b + (2 * t - 1)) / (2 * t) ∧
      b ≤ get_clock_divider b t * t * 2 ∧
      (get_clock_divider b t - 1) * t * 2 < b ∧
      ∀ e, b ≤ e * t * 2 → get_clock_divider b t ≤ e) ∧
    get_clock_divider 50000000 400000 = 63 := by
  refine ⟨?_, ?_, by decide⟩
  · intro h
    simp [get_clock_divider, h]
  · intro ht0 htb
    have hbU : b < U32 := by unfold U32; omega
    have hgcd := get_clock_divider_eq_if b t hbU ht ht0 htb
    have h2t : 0 < 2 * t := by omega
    have hdm := Nat.div_add_mod b (2 * t)
    have hrlt : b % (2 * t) < 2 * t := Nat.mod_lt b h2t
    by_cases hr : b % (2 * t) = 0
    · have hbq : b = 2 * t * (b / (2 * t)) := by omega
      have hcond : ¬ b / (2 * t) * t * 2 < b := by
        have : b / (2 * t) * t * 2 = 2 * t * (b / (2 * t)) := by ring
        omega
      rw [hgcd, if_neg hcond]
      have hq1 : 1 ≤ b / (2 * t) := by
        rcases Nat.eq_zero_or_pos (b / (2 * t)) with h0 | h1
        · rw [h0] at hbq; omega
        · exact h1
      refine ⟨?_, ?_, ?_, ?_⟩
      · have hceil : b + (2 * t - 1) = 2 * t * (b / (2 * t)) + (2 * t - 1) := by
          omega
        have hz : (2 * t - 1) / (2 * t) = 0 := Nat.div_eq_of_lt (by omega)
        rw [hceil, Nat.mul_add_div h2t, hz]
        omega
      · have : b / (2 * t) * t * 2 = 2 * t * (b / (2 * t)) := by ring
        omega
      · have e1 : (b / (2 * t) - 1) * t * 2 =
            b / (2 * t) * t * 2 - 1 * t * 2 := by
          rw [Nat.sub_mul, Nat.sub_mul]
        have e2 : b / (2 * t) * t * 2 = 2 * t * (b / (2 * t)) := by ring
        have e3 : 1 * t * 2 = 2 * t := by ring
        have hge : 2 * t * 1 ≤ 2 * t * (b / (2 * t)) :=
          Nat.mul_le_mul_left (2 * t) hq1
        have e4 : 2 * t * 1 = 2 * t := by ring
        omega
      · intro e he
        have he2 : 2 * t * (b / (2 * t)) ≤ 2 * t * e := by
          have : e * t * 2 = 2 * t * e := by ring
          omega
        exact Nat.le_of_mul_le_mul_left he2 h2t
    · have hlt : 2 * t * (b / (2 * t)) < b := by omega
      have hcond : b / (2 * t) * t * 2 < b := by
        have : b / (2 * t) * t * 2 = 2 * t * (b / (2 * t)) := by ring
        omega
      rw [hgcd, if_pos hcond]
      refine ⟨?_, ?_, ?_, ?_⟩
      · have hceil : b + (2 * t - 1) =
            2 * t * (b / (2 * t)) + (b % (2 * t) - 1 + 2 * t) := by omega
        have hz : (b % (2 * t) - 1) / (2 * t) = 0 := Nat.div_eq_of_lt (by omega)
        rw [hceil, Nat.mul_add_div h2t, Nat.add_div_right _ h2t, hz]
      · have : (b / (2 * t) + 1) * t * 2 = 2 * t * (b / (2 * t)) + 2 * t := by
          ring
        omega
      · have : (b / (2 * t) + 1 - 1) * t * 2 = 2 * t * (b / (2 * t)) := by
          simp only [Nat.add_sub_cancel]; ring
        omega
      · intro e he
        have he2 : 2 * t * (b / (2 * t)) < 2 * t * e := by
          have : e * t * 2 = 2 * t * e := by ring
          omega
        have := Nat.lt_of_mul_lt_mul_left he2
        omega

/-- Claim C2, witness: the amended theorem applied at the 50 MHz base
clock and 400 kHz target of the spec fixture. -/
theorem get_clock_divider_spec_witness :
    get_clock_divider 50000000 400000 = (50000000 + (2 * 400000 - 1)) / (2 * 400000) ∧
    50000000 ≤ get_clock_divider 50000000 400000 * 400000 * 2 := by
  have h := get_clock_divider_spec 50000000 400000 (by decide) (by decide)
  obtain ⟨-, h2, -⟩ := h
  obtain ⟨ha, hb, -, -⟩ := h2 (by decide) (by decide)
  exact ⟨ha, hb⟩

/-- Claim C6, counterexample: at the fixture register values 0x01020304,
0x05060708, 0x090a0b0c, 0x0d0e0f10, the quirk decode is not, word for
word, the byte-shifted non-quirk decode of the same registers: the quirk
decode lists the shifted words in the opposite word order. -/
theorem response_decode_quirk_counterexample :
    decode_response_136 true 16909060 84281096 151653132 219025168 ≠
      decode_response_136_spec_shift 16909060 84281096 151653132 219025168 := by
  decide

/-- Claim C6, amended: for every set of four response-register values,
the quirk decode equals the byte-shifted non-quirk decode with the word
order reversed: quirk word i is non-quirk word 3 - i shifted left by 8
bits, importing the top byte of non-quirk word 2 - i. -/
theorem response_decode_quirk_spec (r0 r1 r2 r3 : Nat) :
    decode_response_136 true r0 r1 r2 r3 =
      (decode_response_136_spec_shift r0 r1 r2 r3).reverse := rfl

/-- Helper: setting the end flag preserves list length. -/
lemma set_end_flag_on_last_length (l : List Desc) :
    (set_end_flag_on_last l).length = l.length := by
  induction l with
  | nil => rfl
  | cons d rest ih =>
      cases rest with
      | nil => rfl
      | cons d2 r2 => simpa [set_end_flag_on_last] using ih

/-- Helper: setting the end flag preserves every length field. -/
lemma set_end_flag_on_last_bytes (l : List Desc) :
    descs_bytes (set_end_flag_on_last l) = descs_bytes l := by
  induction l with
  | nil => rfl
  | cons d rest ih =>
      cases rest with
      | nil => simp [set_end_flag_on_last, descs_bytes, desc_bytes]
      | cons d2 r2 =>
          simp only [set_end_flag_on_last, descs_bytes, List.map_cons,
            List.sum_cons] at ih ⊢
          omega

/-- Helper: on a chain whose flags are all clear, setting the end flag on
the last descriptor makes the flag pattern all-false followed by one
true. -/
lemma set_end_flag_on_last_flags (l : List Desc)
    (h : ∀ d ∈ l, d.endFlag = false) (hne : l ≠ []) :
    (set_end_flag_on_last l).map Desc.endFlag =
      List.replicate (l.length - 1) false ++ [true] := by
  induction l with
  | nil => exact absurd rfl hne
  | cons d rest ih =>
      cases rest with
      | nil => simp [set_end_flag_on_last]
      | cons d2 r2 =>
          have hd : d.endFlag = false := h d (by simp)
          have ih2 := ih (fun x hx => h x (by simp [hx])) (by simp)
          simp only [set_end_flag_on_last, List.map_cons, ih2, hd,
            List.length_cons]
          have : (d2 :: r2).length - 1 + 1 = (d2 :: r2).length := by
            simp
          simp [List.replicate_succ]

/-- Helper: the success run of the descriptor loop.  With every segment
positive and within the 64 KiB cap, and the count budget respected, the
loop appends one descriptor per segment and marks the last. -/
lemma adma_build_loop_ok (segs : List Seg) :
    ∀ count acc, (∀ s ∈ segs, 0 < s.len ∧ s.len ≤ 65536) →
    count + segs.length ≤ DMA_DESC_COUNT → (acc ≠ [] ∨ segs ≠ []) →
    adma_build_loop segs count acc =
      (ZxStatus.ok, set_end_flag_on_last (acc ++ segs.map mk_adma_desc)) := by
  induction segs with
  | nil =>
      intro count acc _ _ hne
      have hacc : acc ≠ [] := by
        rcases hne with h | h
        · exact h
        · exact absurd rfl h
      simp [adma_build_loop, hacc]
  | cons s rest ih =>
      intro count acc hlen hcount _
      obtain ⟨hs0, hsle⟩ := hlen s (by simp)
      have hrest : ∀ x ∈ rest, 0 < x.len ∧ x.len ≤ 65536 :=
        fun x hx => hlen x (by simp [hx])
      have hne0 : ¬ s.len = 0 := by omega
      have hcap : ¬ ADMA2_DESC_MAX_LENGTH < s.len := by
        unfold ADMA2_DESC_MAX_LENGTH; omega
      have hcnt : ¬ DMA_DESC_COUNT < count + 1 := by
        simp only [List.length_cons] at hcount
        omega
      have hcount2 : count + 1 + rest.length ≤ DMA_DESC_COUNT := by
        simp only [List.length_cons] at hcount
        omega
      rw [adma_build_loop, if_neg hne0, if_neg hcap, if_neg hcnt,
        ih (count + 1) (acc ++ [mk_adma_desc s]) hrest hcount2
          (Or.inl (by simp))]
      simp

/-- Helper: a segment list that is everywhere positive but contains an
over-cap segment always drives the loop to the not-supported status. -/
lemma adma_build_loop_err_big (segs : List Seg) :
    ∀ count acc, (∀ s ∈ segs, 0 < s.len) →
    (∃ s ∈ segs, ADMA2_DESC_MAX_LENGTH < s.len) →
    (adma_build_loop segs count acc).1 = ZxStatus.notSupported := by
  induction segs with
  | nil =>
      intro count acc _ hex
      simp at hex
  | cons s rest ih =>
      intro count acc hpos hex
      have hs0 : ¬ s.len = 0 := by
        have := hpos s (by simp)
        omega
      by_cases hcap : ADMA2_DESC_MAX_LENGTH < s.len
      · rw [adma_build_loop, if_neg hs0, if_pos hcap]
      · have hex2 : ∃ x ∈ rest, ADMA2_DESC_MAX_LENGTH < x.len := by
          rcases hex with ⟨x, hx, hxl⟩
          rcases List.mem_cons.mp hx with rfl | hx2
          · exact absurd hxl hcap
          · exact ⟨x, hx2, hxl⟩
        by_cases hcnt : DMA_DESC_COUNT < count + 1
        · rw [adma_build_loop, if_neg hs0, if_neg hcap, if_pos hcnt]
        · rw [adma_build_loop, if_neg hs0, if_neg hcap, if_neg hcnt]
          exact ih (count + 1) (acc ++ [mk_adma_desc s])
            (fun x hx => hpos x (by simp [hx])) hex2

/-- Helper: a segment list that is everywhere positive and outruns the
remaining count budget always drives the loop to the not-supported
status. -/
lemma adma_build_loop_err_count (segs : List Seg) :
    ∀ count acc, (∀ s ∈ segs, 0 < s.len) → count ≤ DMA_DESC_COUNT →
    DMA_DESC_COUNT < count + segs.length →
    (adma_build_loop segs count acc).1 = ZxStatus.notSupported := by
  induction segs with
  | nil =>
      intro count acc _ hle hgt
      simp at hgt
      omega
  | cons s rest ih =>
      intro count acc hpos hle hgt
      have hs0 : ¬ s.len = 0 := by
        have := hpos s (by simp)
        omega
      by_cases hcap : ADMA2_DESC_MAX_LENGTH < s.len
      · rw [adma_build_loop, if_neg hs0, if_pos hcap]
      · by_cases hcnt : DMA_DESC_COUNT < count + 1
        · rw [adma_build_loop, if_neg hs0, if_neg hcap, if_pos hcnt]
        · rw [adma_build_loop, if_neg hs0, if_neg hcap, if_neg hcnt]
          refine ih (count + 1) (acc ++ [mk_adma_desc s])
            (fun x hx => hpos x (by simp [hx])) (by omega) ?_
          simp only [List.length_cons] at hgt
          omega

/-- Helper: the byte count a built descriptor stands for equals the
segment length when the segment is positive and within the cap. -/
lemma desc_bytes_mk (s : Seg) (h0 : 0 < s.len) (hle : s.len ≤ 65536) :
    desc_bytes (mk_adma_desc s) = s.len := by
  unfold desc_bytes mk_adma_desc
  by_cases he : s.len = 65536
  · simp [he]
  · have : s.len % 65536 = s.len := Nat.mod_eq_of_lt (by omega)
    simp only [this]
    rw [if_neg (by omega)]

/-- Helper: total bytes of the mapped descriptors equal total segment
bytes under the per-segment bounds. -/
lemma descs_bytes_map (segs : List Seg)
    (h : ∀ s ∈ segs, 0 < s.len ∧ s.len ≤ 65536) :
    descs_bytes (segs.map mk_adma_desc) = segs_bytes segs := by
  induction segs with
  | nil => rfl
  | cons s rest ih =>
      obtain ⟨h0, hle⟩ := h s (by simp)
      simp only [List.map_cons, descs_bytes, segs_bytes, List.sum_cons] at ih ⊢
      rw [show desc_bytes (mk_adma_desc s) = s.len from desc_bytes_mk s h0 hle]
      have := ih (fun x hx => h x (by simp [hx]))
      simp only [descs_bytes, segs_bytes] at this
      omega

/-- Claim C1: for every physical-segment sequence the iterator yields
(each yielded segment is nonempty; a zero length is the iterator end
marker), the builder emits exactly one descriptor per segment with the
lengths summing to the total and only the last descriptor carrying the
end flag, provided every segment is within the 64 KiB cap and at most
8192 segments are required; it returns the not-supported status when a
segment exceeds the cap, when more than 8192 segments are required, and
when the sequence is empty. -/
theorem adma_descriptor_builder_spec (segs : List Seg)
    (hpos : ∀ s ∈ segs, 0 < s.len) :
    (segs ≠ [] → (∀ s ∈ segs, s.len ≤ 65536) → segs.length ≤ 8192 →
      (adma_build segs).1 = ZxStatus.ok ∧
      (adma_build segs).2.length = segs.length ∧
      descs_bytes (adma_build segs).2 = segs_bytes segs ∧
      (adma_build segs).2.map Desc.endFlag =
        List.replicate (segs.length - 1) false ++ [true]) ∧
    ((∃ s ∈ segs, 65536 < s.len) →
      (adma_build segs).1 = ZxStatus.notSupported) ∧
    (8192 < segs.length → (adma_build segs).1 = ZxStatus.notSupported) ∧
    (segs = [] → (adma_build segs).1 = ZxStatus.notSupported) := by
  refine ⟨?_, ?_, ?_, ?_⟩
  · intro hne hcap hcnt
    have hbd : ∀ s ∈ segs, 0 < s.len ∧ s.len ≤ 65536 :=
      fun s hs => ⟨hpos s hs, hcap s hs⟩
    have hrun := adma_build_loop_ok segs 0 [] hbd
      (by unfold DMA_DESC_COUNT; omega) (Or.inr hne)
    have hmapne : segs.map mk_adma_desc ≠ [] := by
      simpa using hne
    have hflags : ∀ d ∈ segs.map mk_adma_desc, d.endFlag = false := by
      intro d hd
      rcases List.mem_map.mp hd with ⟨s, _, rfl⟩
      rfl
    unfold adma_build
    rw [hrun]
    refine ⟨rfl, ?_, ?_, ?_⟩
    · simp [set_end_flag_on_last_length]
    · simp [set_end_flag_on_last_bytes, descs_bytes_map segs hbd]
    · simp only [List.nil_append]
      rw [set_end_flag_on_last_flags _ hflags hmapne]
      simp
  · intro hex
    exact adma_build_loop_err_big segs 0 [] hpos
      (by simpa [ADMA2_DESC_MAX_LENGTH] using hex)
  · intro hgt
    exact adma_build_loop_err_count segs 0 [] hpos
      (by unfold DMA_DESC_COUNT; omega)
      (by unfold DMA_DESC_COUNT; omega)
  · intro h
    subst h
    rfl

/-- Claim C1, witness: the builder applied to a single 512-byte segment
at address 4096 through the theorem above. -/
theorem adma_descriptor_builder_spec_witness :
    (adma_build [⟨512, 4096⟩]).1 = ZxStatus.ok ∧
    (adma_build [⟨512, 4096⟩]).2.length = 1 ∧
    descs_bytes (adma_build [⟨512, 4096⟩]).2 = 512 ∧
    (adma_build [⟨512, 4096⟩]).2.map Desc.endFlag = [true] := by
  have h := adma_descriptor_builder_spec [⟨512, 4096⟩]
    (by intro s hs; simp at hs; subst hs; decide)
  obtain ⟨h1, -, -, -⟩ := h
  obtain ⟨ha, hb, hc, hd⟩ := h1 (by simp) (by intro s hs; simp at hs; subst hs; decide)
    (by simp)
  refine ⟨ha, by simpa using hb, by simpa [segs_bytes] using hc, by simpa using hd⟩

/-- Helper: shrinking a bit test to a submask of an already-clear mask. -/
lemma land_submask_zero (x m sub : Nat) (hm : x &&& m = 0)
    (hsub : m &&& sub = sub) : x &&& sub = 0 := by
  calc x &&& sub = x &&& (m &&& sub) := by rw [hsub]
  _ = (x &&& m) &&& sub := (Nat.land_assoc x m sub).symm
  _ = 0 := by rw [hm]; simp

/-- Helper: the busy path of sdhci_request, shared by the claims about
rejected second submissions. -/
lemma sdhci_request_busy (dev : Dev) (r req2 : Req) (h : dev.req = some r) :
    sdhci_request dev req2 = some (ZxStatus.shouldWait, dev) := by
  simp [sdhci_request, h]

/-- Claim C3: while a request is in flight, a second submit returns the
busy signal ZX_ERR_SHOULD_WAIT and returns the controller state
(registers, in-flight reference, descriptor buffer) exactly unchanged. -/
theorem sdhci_request_busy_spec (dev : Dev) (r req2 : Req)
    (h : dev.req = some r) :
    sdhci_request dev req2 = some (ZxStatus.shouldWait, dev) :=
  sdhci_request_busy dev r req2 h

/-- Claim C3, witness: a concrete in-flight controller rejects a second
submission and is returned unchanged. -/
theorem sdhci_request_busy_spec_witness :
    sdhci_request
      { regs := ⟨0, 0, 0, 0, 0, 0, 0, 0, 0, 0, 0, 0, 0, 0, 0, 0, 0⟩,
        req := some ⟨0, 0, 0, 0, 0, [], none⟩, caps := 0, quirks := 0,
        descs := [], iobufPhys := 0, base_clock := 0 }
      ⟨1, 2, 3, 4, 0, [], none⟩ =
    some (ZxStatus.shouldWait,
      { regs := ⟨0, 0, 0, 0, 0, 0, 0, 0, 0, 0, 0, 0, 0, 0, 0, 0, 0⟩,
        req := some ⟨0, 0, 0, 0, 0, [], none⟩, caps := 0, quirks := 0,
        descs := [], iobufPhys := 0, base_clock := 0 }) :=
  sdhci_request_busy_spec _ ⟨0, 0, 0, 0, 0, [], none⟩ _ rfl

/-- Claim C4: error recovery with a request in flight completes exactly
that request with an I/O error and zero transferred bytes and leaves the
in-flight reference empty; the same holds for the whole interrupt step
on any interrupt word made of error bits only (nonempty error part, no
normal-interrupt bits). -/
theorem error_recovery_completes_spec (dev : Dev) (r : Req) (irq : Nat)
    (hr : dev.req = some r) (herr : irq &&& error_interrupts ≠ 0)
    (hnorm : irq &&& normal_interrupts = 0) :
    ((sdhci_error_recovery_locked dev).1.req = none ∧
     (sdhci_error_recovery_locked dev).2 =
       [⟨CompletionSource.errRecovery,
         mark_request_complete r ZxStatus.ioError 0, ZxStatus.ioError, 0⟩]) ∧
    ((sdhci_irq_step dev irq).1.req = none ∧
     (sdhci_irq_step dev irq).2 =
       [⟨CompletionSource.errRecovery,
         mark_request_complete r ZxStatus.ioError 0, ZxStatus.ioError, 0⟩]) := by
  have h1 : irq &&& SDHCI_IRQ_CMD_CPLT = 0 :=
    land_submask_zero irq normal_interrupts SDHCI_IRQ_CMD_CPLT hnorm (by decide)
  have h2 : irq &&& SDHCI_IRQ_BUFF_READ_READY = 0 :=
    land_submask_zero irq normal_interrupts SDHCI_IRQ_BUFF_READ_READY hnorm
      (by decide)
  have h3 : irq &&& SDHCI_IRQ_BUFF_WRITE_READY = 0 :=
    land_submask_zero irq normal_interrupts SDHCI_IRQ_BUFF_WRITE_READY hnorm
      (by decide)
  have h4 : irq &&& SDHCI_IRQ_XFER_CPLT = 0 :=
    land_submask_zero irq normal_interrupts SDHCI_IRQ_XFER_CPLT hnorm (by decide)
  constructor
  · simp [sdhci_error_recovery_locked, hr, sdhci_complete_request_locked]
  · simp [sdhci_irq_step, h1, h2, h3, h4, herr,
      sdhci_error_recovery_locked, hr, sdhci_complete_request_locked]

/-- Claim C4, witness: a concrete in-flight controller receiving the
data-CRC error interrupt completes the request with an I/O error. -/
theorem error_recovery_completes_spec_witness :
    ((sdhci_irq_step
      { regs := ⟨0, 0, 0, 0, 0, 0, 0, 0, 0, 0, 0, 0, 0, 0, 0, 0, 0⟩,
        req := some ⟨0, 0, 2, 512, 0, [], none⟩, caps := 0, quirks := 0,
        descs := [], iobufPhys := 0, base_clock := 0 }
      SDHCI_IRQ_ERR_DAT_CRC).1.req = none ∧
     (sdhci_irq_step
      { regs := ⟨0, 0, 0, 0, 0, 0, 0, 0, 0, 0, 0, 0, 0, 0, 0, 0, 0⟩,
        req := some ⟨0, 0, 2, 512, 0, [], none⟩, caps := 0, quirks := 0,
        descs := [], iobufPhys := 0, base_clock := 0 }
      SDHCI_IRQ_ERR_DAT_CRC).2 =
       [⟨CompletionSource.errRecovery,
         mark_request_complete ⟨0, 0, 2, 512, 0, [], none⟩ ZxStatus.ioError 0,
         ZxStatus.ioError, 0⟩]) :=
  (error_recovery_completes_spec _ ⟨0, 0, 2, 512, 0, [], none⟩ _
    rfl (by decide) (by decide)).2

/-- Claim C10: submission records the request as in-flight before any
validation, and the failing returns do not clear it: a data-phase
command with no attached buffer fails with the invalid-argument status
but leaves the request recorded; a DMA submission whose segment iterator
yields no segments fails with the not-supported status but leaves the
request recorded; and any later submission against a controller with a
recorded request returns only the busy signal. -/
theorem submit_records_inflight_spec (dev : Dev) (req : Req)
    (h0 : dev.req = none) :
    (req.cmd &&& SDMMC_RESP_DATA_PRESENT ≠ 0 → req.txn = none →
      sdhci_request dev req =
        some (ZxStatus.invalidArgs, { dev with req := some req })) ∧
    (∀ t, req.cmd &&& SDMMC_RESP_DATA_PRESENT ≠ 0 → req.txn = some t →
      t.segs = [] → dev.regs.state = 0 →
      sdhci_supports_adma2_64bit dev = true →
      ∃ dev2, sdhci_request dev req = some (ZxStatus.notSupported, dev2) ∧
        dev2.req = some req) ∧
    (∀ dev2 (r req2 : Req), dev2.req = some r →
      sdhci_request dev2 req2 = some (ZxStatus.shouldWait, dev2)) := by
  refine ⟨?_, ?_, ?_⟩
  · intro hdata htxn
    simp [sdhci_request, sdhci_start_req_locked, h0, hdata, htxn]
  · intro t hdata htxn hsegs hstate hdma
    have hdma2 : sdhci_supports_adma2_64bit { dev with req := some req } = true := by
      simpa [sdhci_supports_adma2_64bit] using hdma
    refine ⟨{ dev with req := some req, descs := [] }, ?_, rfl⟩
    simp only [sdhci_request, h0, Option.isSome_none, Bool.false_eq_true,
      if_false, sdhci_start_req_locked, htxn]
    simp [hdata, hstate, htxn, hsegs, hdma2, adma_build, adma_build_loop]
  · intro dev2 r req2 h
    exact sdhci_request_busy dev2 r req2 h

/-- Helper: a just-set power-of-two bit tests nonzero. -/
lemma lor_pow_and_pow (x i : Nat) : (x ||| 2 ^ i) &&& 2 ^ i = 2 ^ i := by
  rw [Nat.and_two_pow, Nat.testBit_lor, Nat.testBit_two_pow_self]
  simp

/-- Helper: a just-cleared bit tests zero. -/
lemma bic32_and_self (x m : Nat) (hm : (4294967295 ^^^ m) &&& m = 0) :
    bic32 x m &&& m = 0 := by
  unfold bic32
  rw [Nat.land_assoc, hm]
  simp

/-- Helper: the tuning do-while loop makes at most remaining + 1 further
queue submissions beyond the current index. -/
lemma tuning_do_loop_queues (hw : Nat → Nat → Nat) :
    ∀ remaining qIdx c2,
      (tuning_do_loop hw qIdx c2 remaining).2 ≤ qIdx + remaining + 1 := by
  intro remaining
  induction remaining with
  | zero =>
      intro qIdx c2
      rw [tuning_do_loop]
      split
      · omega
      · omega
  | succ r ih =>
      intro qIdx c2
      rw [tuning_do_loop]
      split
      · have := ih (qIdx + 1) (hw qIdx c2 % U32)
        omega
      · omega

/-- Helper: the unfolded form of sdhci_perform_tuning. -/
lemma perform_tuning_eq (hw : Nat → Nat → Nat) (ctrl0 ctrl2 : Nat) :
    sdhci_perform_tuning hw ctrl0 ctrl2 =
      if (tuning_do_loop hw 0 (ctrl2 ||| SDHCI_HOSTCTRL2_EXEC_TUNING)
            MAX_TUNING_COUNT).1 &&& SDHCI_HOSTCTRL2_EXEC_TUNING ≠ 0 ∨
         (tuning_do_loop hw 0 (ctrl2 ||| SDHCI_HOSTCTRL2_EXEC_TUNING)
            MAX_TUNING_COUNT).1 &&& SDHCI_HOSTCTRL2_CLOCK_SELECT = 0
      then (mk_tuning_request ctrl0, ZxStatus.ioError,
            (tuning_do_loop hw 0 (ctrl2 ||| SDHCI_HOSTCTRL2_EXEC_TUNING)
              MAX_TUNING_COUNT).1,
            (tuning_do_loop hw 0 (ctrl2 ||| SDHCI_HOSTCTRL2_EXEC_TUNING)
              MAX_TUNING_COUNT).2)
      else (mk_tuning_request ctrl0, ZxStatus.ok,
            (tuning_do_loop hw 0 (ctrl2 ||| SDHCI_HOSTCTRL2_EXEC_TUNING)
              MAX_TUNING_COUNT).1,
            (tuning_do_loop hw 0 (ctrl2 ||| SDHCI_HOSTCTRL2_EXEC_TUNING)
              MAX_TUNING_COUNT).2) := rfl

/-- Claim C7: perform_tuning builds a zero-length tuning-block request
with block size 128 exactly when the 8-bit-bus control bit is set and 64
otherwise, sets the execute-tuning bit before the loop, submits the
request at most MAX_TUNING_COUNT + 1 times, and returns success exactly
when the final ctrl2 reading shows execute-tuning cleared and the clock
select bit asserted, returning the I/O error status in every other
case. -/
theorem perform_tuning_spec (hw : Nat → Nat → Nat) (ctrl0 ctrl2 : Nat) :
    ((sdhci_perform_tuning hw ctrl0 ctrl2).1 = mk_tuning_request ctrl0 ∧
     (mk_tuning_request ctrl0).blocksize =
       (if ctrl0 &&& SDHCI_HOSTCTRL_EXT_DATA_WIDTH ≠ 0 then 128 else 64) ∧
     (mk_tuning_request ctrl0).blockcount = 0 ∧
     (mk_tuning_request ctrl0).cmd = MMC_SEND_TUNING_BLOCK) ∧
    (ctrl2 ||| SDHCI_HOSTCTRL2_EXEC_TUNING) &&& SDHCI_HOSTCTRL2_EXEC_TUNING ≠ 0 ∧
    (sdhci_perform_tuning hw ctrl0 ctrl2).2.2.2 ≤ MAX_TUNING_COUNT + 1 ∧
    ((sdhci_perform_tuning hw ctrl0 ctrl2).2.1 = ZxStatus.ok ↔
      ((sdhci_perform_tuning hw ctrl0 ctrl2).2.2.1 &&&
          SDHCI_HOSTCTRL2_EXEC_TUNING = 0 ∧
       (sdhci_perform_tuning hw ctrl0 ctrl2).2.2.1 &&&
          SDHCI_HOSTCTRL2_CLOCK_SELECT ≠ 0)) ∧
    ((sdhci_perform_tuning hw ctrl0 ctrl2).2.1 = ZxStatus.ok ∨
     (sdhci_perform_tuning hw ctrl0 ctrl2).2.1 = ZxStatus.ioError) := by
  rw [perform_tuning_eq hw ctrl0 ctrl2]
  by_cases h : (tuning_do_loop hw 0 (ctrl2 ||| SDHCI_HOSTCTRL2_EXEC_TUNING)
      MAX_TUNING_COUNT).1 &&& SDHCI_HOSTCTRL2_EXEC_TUNING ≠ 0 ∨
    (tuning_do_loop hw 0 (ctrl2 ||| SDHCI_HOSTCTRL2_EXEC_TUNING)
      MAX_TUNING_COUNT).1 &&& SDHCI_HOSTCTRL2_CLOCK_SELECT = 0
  · rw [if_pos h]
    refine ⟨⟨rfl, rfl, rfl, rfl⟩, ?_, ?_, ?_, Or.inr rfl⟩
    · have he : SDHCI_HOSTCTRL2_EXEC_TUNING = 2 ^ 22 := by decide
      rw [he, lor_pow_and_pow]
      decide
    · simpa using tuning_do_loop_queues hw MAX_TUNING_COUNT 0
        (ctrl2 ||| SDHCI_HOSTCTRL2_EXEC_TUNING)
    · constructor
      · intro hcontra
        simp at hcontra
      · intro hok
        rcases h with h | h
        · exact absurd hok.1 h
        · exact absurd h hok.2
  · rw [if_neg h]
    push_neg at h
    refine ⟨⟨rfl, rfl, rfl, rfl⟩, ?_, ?_, ?_, Or.inl rfl⟩
    · have he : SDHCI_HOSTCTRL2_EXEC_TUNING = 2 ^ 22 := by decide
      rw [he, lor_pow_and_pow]
      decide
    · simpa using tuning_do_loop_queues hw MAX_TUNING_COUNT 0
        (ctrl2 ||| SDHCI_HOSTCTRL2_EXEC_TUNING)
    · exact ⟨fun _ => ⟨h.1, h.2⟩, fun _ => rfl⟩

/-- Claim C8: set_signal_voltage rejects voltage codes at or above the
enum bound with the invalid-argument status and no state change;
for an accepted voltage it performs the 5 ms settle wait, succeeds
exactly when the power-control register already carries the bus-power
and matching voltage-select bits (returning the internal status
otherwise), and on success re-enables the SD clock with the 1.8 V
signalling bit set exactly for the 1.8 V code. -/
theorem set_signal_voltage_spec (voltage : Nat) (trace : Bool) (regs : Regs) :
    (SDMMC_VOLTAGE_MAX ≤ voltage →
      sdhci_set_signal_voltage voltage trace regs =
        (ZxStatus.invalidArgs, regs, [])) ∧
    (voltage < SDMMC_VOLTAGE_MAX →
      5 ∈ (sdhci_set_signal_voltage voltage trace regs).2.2 ∧
      ((sdhci_set_signal_voltage voltage trace regs).1 = ZxStatus.ok ↔
        regs.ctrl0 &&& (SDHCI_PWRCTRL_SD_BUS_POWER |||
          (if voltage = SDMMC_VOLTAGE_180 then SDHCI_PWRCTRL_SD_BUS_VOLTAGE_1P8V
           else SDHCI_PWRCTRL_SD_BUS_VOLTAGE_3P3V)) =
          SDHCI_PWRCTRL_SD_BUS_POWER |||
          (if voltage = SDMMC_VOLTAGE_180 then SDHCI_PWRCTRL_SD_BUS_VOLTAGE_1P8V
           else SDHCI_PWRCTRL_SD_BUS_VOLTAGE_3P3V)) ∧
      ((sdhci_set_signal_voltage voltage trace regs).1 = ZxStatus.ok ∨
       (sdhci_set_signal_voltage voltage trace regs).1 = ZxStatus.internal) ∧
      ((sdhci_set_signal_voltage voltage trace regs).1 = ZxStatus.ok →
        (sdhci_set_signal_voltage voltage trace regs).2.1.ctrl1 &&&
          SDHCI_SD_CLOCK_ENABLE ≠ 0 ∧
        ((sdhci_set_signal_voltage voltage trace regs).2.1.ctrl2 &&&
            SDHCI_HOSTCTRL2_1P8V_SIGNALLING_ENA ≠ 0 ↔
          voltage = SDMMC_VOLTAGE_180))) := by
  constructor
  · intro h
    simp [sdhci_set_signal_voltage, h]
  · intro hlt
    have hset : ∀ x : Nat, (x ||| SDHCI_HOSTCTRL2_1P8V_SIGNALLING_ENA) &&&
        SDHCI_HOSTCTRL2_1P8V_SIGNALLING_ENA ≠ 0 := by
      intro x
      have h19 : SDHCI_HOSTCTRL2_1P8V_SIGNALLING_ENA = 2 ^ 19 := by decide
      rw [h19, lor_pow_and_pow]
      decide
    have hclr : ∀ x : Nat, bic32 x SDHCI_HOSTCTRL2_1P8V_SIGNALLING_ENA &&&
        SDHCI_HOSTCTRL2_1P8V_SIGNALLING_ENA = 0 := by
      intro x
      exact bic32_and_self x _ (by decide)
    have hclk : ∀ x : Nat, (x ||| SDHCI_SD_CLOCK_ENABLE) &&&
        SDHCI_SD_CLOCK_ENABLE ≠ 0 := by
      intro x
      have h2 : SDHCI_SD_CLOCK_ENABLE = 2 ^ 2 := by decide
      rw [h2, lor_pow_and_pow]
      decide
    have hv : voltage = SDMMC_VOLTAGE_330 ∨ voltage = SDMMC_VOLTAGE_180 := by
      unfold SDMMC_VOLTAGE_MAX at hlt
      unfold SDMMC_VOLTAGE_330 SDMMC_VOLTAGE_180
      omega
    rcases hv with hv | hv
    · subst hv
      by_cases hver : regs.ctrl0 &&& (SDHCI_PWRCTRL_SD_BUS_POWER |||
          SDHCI_PWRCTRL_SD_BUS_VOLTAGE_3P3V) =
          SDHCI_PWRCTRL_SD_BUS_POWER ||| SDHCI_PWRCTRL_SD_BUS_VOLTAGE_3P3V
      · simp [sdhci_set_signal_voltage, sdhci_set_signal_voltage_verify,
          SDMMC_VOLTAGE_MAX, SDMMC_VOLTAGE_330, SDMMC_VOLTAGE_180,
          hclr, hver, hclk]
      · simp [sdhci_set_signal_voltage, sdhci_set_signal_voltage_verify,
          SDMMC_VOLTAGE_MAX, SDMMC_VOLTAGE_330, SDMMC_VOLTAGE_180,
          hclr, hver]
    · subst hv
      by_cases hver : regs.ctrl0 &&& (SDHCI_PWRCTRL_SD_BUS_POWER |||
          SDHCI_PWRCTRL_SD_BUS_VOLTAGE_1P8V) =
          SDHCI_PWRCTRL_SD_BUS_POWER ||| SDHCI_PWRCTRL_SD_BUS_VOLTAGE_1P8V
      · simp [sdhci_set_signal_voltage, sdhci_set_signal_voltage_verify,
          SDMMC_VOLTAGE_MAX, SDMMC_VOLTAGE_330, SDMMC_VOLTAGE_180,
          hset, hver, hclk]
      · simp [sdhci_set_signal_voltage, sdhci_set_signal_voltage_verify,
          SDMMC_VOLTAGE_MAX, SDMMC_VOLTAGE_330, SDMMC_VOLTAGE_180,
          hset, hver]

/-- Claim C8, witness: the theorem applied at the 1.8 V code on a
register file whose power-control bits match the request. -/
theorem set_signal_voltage_spec_witness :
    (sdhci_set_signal_voltage SDMMC_VOLTAGE_180 false
        ⟨0, 0, 0, 0, 0, 0, 0, 0, 2816, 4, 0, 0, 0, 0, 0, 0, 0⟩).1 =
      ZxStatus.ok ∧
    5 ∈ (sdhci_set_signal_voltage SDMMC_VOLTAGE_180 false
        ⟨0, 0, 0, 0, 0, 0, 0, 0, 2816, 4, 0, 0, 0, 0, 0, 0, 0⟩).2.2 := by
  have h := (set_signal_voltage_spec SDMMC_VOLTAGE_180 false
    ⟨0, 0, 0, 0, 0, 0, 0, 0, 2816, 4, 0, 0, 0, 0, 0, 0, 0⟩).2 (by decide)
  exact ⟨h.2.1.mpr (by decide), h.1⟩

/-- Helper: when every present-state reading keeps an inhibit bit set,
the bounded wait of set_bus_freq times out. -/
lemma freq_inhibit_wait_none (readings : Nat → Nat)
    (h : ∀ k, readings k &&&
      (SDHCI_STATE_CMD_INHIBIT ||| SDHCI_STATE_DAT_INHIBIT) ≠ 0) :
    ∀ remaining idx, freq_inhibit_wait readings idx remaining = none := by
  intro remaining
  induction remaining with
  | zero =>
      intro idx
      rw [freq_inhibit_wait, if_neg (h idx)]
  | succ r ih =>
      intro idx
      rw [freq_inhibit_wait, if_neg (h idx)]
      exact ih (idx + 1)

/-- Helper: when every present-state reading keeps a masked bit set, the
submit-path spin never completes, whatever fuel it is given; its result
type has no timeout value at all. -/
lemma submit_inhibit_wait_none (readings : Nat → Nat) (mask : Nat)
    (h : ∀ k, readings k &&& mask ≠ 0) :
    ∀ fuel idx, submit_inhibit_wait readings mask idx fuel = none := by
  intro fuel
  induction fuel with
  | zero => intro idx; rfl
  | succ f ih =>
      intro idx
      rw [submit_inhibit_wait, if_neg (h idx)]
      exact ih (idx + 1)

/-- Claim C9: when the inhibit bits never clear, set_bus_freq returns the
timeout status after its bounded 1000-iteration wait with the clock and
divider register value untouched, while the submit-path inhibit wait
never completes for any fuel bound and has no timeout outcome. -/
theorem inhibit_wait_bounds_spec (readings : Nat → Nat) (base f ctrl1 : Nat)
    (h : ∀ k, readings k &&&
      (SDHCI_STATE_CMD_INHIBIT ||| SDHCI_STATE_DAT_INHIBIT) ≠ 0) :
    sdhci_set_bus_freq base f readings ctrl1 = (ZxStatus.timedOut, ctrl1) ∧
    (∀ mask, (∀ k, readings k &&& mask ≠ 0) →
      ∀ fuel idx, submit_inhibit_wait readings mask idx fuel = none) := by
  constructor
  · unfold sdhci_set_bus_freq
    rw [freq_inhibit_wait_none readings h 1000 0]
  · exact fun mask hm => submit_inhibit_wait_none readings mask hm

/-- Claim C9, witness: the theorem applied to the constant reading with
both inhibit bits set. -/
theorem inhibit_wait_bounds_spec_witness :
    sdhci_set_bus_freq 0 0 (fun _ => 3) 77 = (ZxStatus.timedOut, 77) ∧
    submit_inhibit_wait (fun _ => 3) 3 0 5 = none := by
  have h0 : (3 : Nat) &&&
      (SDHCI_STATE_CMD_INHIBIT ||| SDHCI_STATE_DAT_INHIBIT) ≠ 0 := by decide
  have h1 : (3 : Nat) &&& 3 ≠ 0 := by decide
  have h := inhibit_wait_bounds_spec (fun _ => 3) 0 0 77 (fun _ => h0)
  exact ⟨h.1, h.2 3 (fun _ => h1) 5 0⟩

/-- Helper: a silent transition that keeps the in-flight reference
satisfies the automaton invariant package. -/
lemma POK_of_req_eq (d e : Dev) (h : e.req = d.req) : POK d (e, []) := by
  refine ⟨fun h2 => ⟨rfl, by rw [h, h2]⟩, by simp, by simp, ?_, by simp⟩
  intro hi r hr
  exact hi r (by rw [← h]; exact hr)

/-- Helper: a silent transition that replaces the in-flight request
without touching its block cursor or count satisfies the package. -/
lemma POK_same_blocks (d e : Dev) (r r2 : Req) (hr : d.req = some r)
    (he : e.req = some r2) (hid : r2.blockid = r.blockid)
    (hbc : r2.blockcount = r.blockcount) : POK d (e, []) := by
  refine ⟨?_, by simp, by simp, ?_, by simp⟩
  · intro h
    rw [hr] at h
    cases h
  · intro hi r3 h3
    rw [he] at h3
    cases h3
    rw [hid, hbc]
    exact hi r hr

/-- Helper: the two exits of sdhci_complete_request_locked. -/
lemma complete_cases (d : Dev) (src : CompletionSource) (st : ZxStatus)
    (a : Nat) :
    (d.req = none → sdhci_complete_request_locked d src st a = (d, [])) ∧
    (∀ r, d.req = some r →
      sdhci_complete_request_locked d src st a =
        ({ d with regs := { d.regs with irqen := 0 }, req := none },
         [⟨src, mark_request_complete r st a, st, a⟩])) := by
  constructor
  · intro h
    simp [sdhci_complete_request_locked, h]
  · intro r h
    simp [sdhci_complete_request_locked, h]

/-- Helper: the request handed to the completion callback keeps the
command, cursor and count of the in-flight request. -/
lemma mark_fields (r : Req) (st : ZxStatus) (a : Nat) :
    (mark_request_complete r st a).cmd = r.cmd ∧
    (mark_request_complete r st a).blockid = r.blockid ∧
    (mark_request_complete r st a).blockcount = r.blockcount := by
  unfold mark_request_complete
  cases r.txn <;> simp

/-- Helper: a completing transition from an in-flight state satisfies
the package whenever its single completion is well shaped.  The base
state d0 is the state the handler started from; e is the state the
completion call receives. -/
lemma POK_complete (d0 e : Dev) (r0 : Req) (src : CompletionSource)
    (st : ZxStatus) (a : Nat) (hr0 : d0.req = some r0)
    (hshape : ∀ r, e.req = some r →
      ShapeOK ⟨src, mark_request_complete r st a, st, a⟩) :
    POK d0 (sdhci_complete_request_locked e src st a) := by
  rcases he : e.req with - | r
  · rw [(complete_cases e src st a).1 he]
    refine ⟨?_, by simp, by simp, ?_, by simp⟩
    · intro h
      rw [hr0] at h
      cases h
    · intro _ r3 h3
      rw [he] at h3
      cases h3
  · rw [(complete_cases e src st a).2 r he]
    refine ⟨?_, fun _ => rfl, by simp, ?_, ?_⟩
    · intro h
      rw [hr0] at h
      cases h
    · intro _ r3 h3
      cases h3
    · intro c hc
      simp only [List.mem_singleton] at hc
      subst hc
      exact hshape r he

/-- Helper: the command-stage handler satisfies the package. -/
lemma cmd_stage_POK (d : Dev) : POK d (sdhci_cmd_stage_complete_locked d) := by
  rcases hr : d.req with - | r
  · simp only [sdhci_cmd_stage_complete_locked, hr]
    exact POK_of_req_eq d d rfl
  · simp only [sdhci_cmd_stage_complete_locked, hr]
    by_cases hd : r.cmd &&& SDMMC_RESP_DATA_PRESENT ≠ 0
    · rw [if_pos hd]
      exact POK_same_blocks d _ r _ hr rfl rfl rfl
    · rw [if_neg hd]
      push_neg at hd
      refine POK_complete _ _ _ _ _ _ hr ?_
      intro r2 hr2
      cases hr2
      refine ⟨?_, ?_, ?_⟩
      · rintro (h | h) <;> cases h
      · intro _
        refine ⟨rfl, rfl, ?_⟩
        rw [(mark_fields _ _ _).1]
        exact hd
      · intro h
        cases h

/-- Helper: the read-ready handler satisfies the package. -/
lemma read_ready_POK (d : Dev) :
    POK d (sdhci_data_stage_read_ready_locked d) := by
  rcases hr : d.req with - | r
  · simp only [sdhci_data_stage_read_ready_locked, hr]
    exact POK_of_req_eq d d rfl
  · simp only [sdhci_data_stage_read_ready_locked, hr]
    by_cases htun : r.cmd = MMC_SEND_TUNING_BLOCK
    · rw [if_pos htun]
      by_cases hend : r.blockid = r.blockcount
      · rw [if_pos hend]
        refine POK_complete _ _ _ _ _ _ hr ?_
        intro r2 hr2
        cases hr2
        refine ⟨?_, ?_, ?_⟩
        · intro _
          refine ⟨rfl, ?_⟩
          rw [(mark_fields _ _ _).2.1, (mark_fields _ _ _).2.2]
          exact hend
        · intro h
          cases h
        · intro h
          cases h
      · rw [if_neg hend]
        exact POK_same_blocks d _ r r hr rfl rfl rfl
    · rw [if_neg htun]
      by_cases hend : r.blockid + 1 = r.blockcount
      · rw [if_pos hend]
        refine POK_complete _ _ _ _ _ _ hr ?_
        intro r2 hr2
        cases hr2
        refine ⟨?_, ?_, ?_⟩
        · intro _
          refine ⟨rfl, ?_⟩
          rw [(mark_fields _ _ _).2.1, (mark_fields _ _ _).2.2]
          exact hend
        · intro h
          cases h
        · intro h
          cases h
      · rw [if_neg hend]
        refine ⟨?_, by simp, by simp, ?_, by simp⟩
        · intro h
          rw [hr] at h
          cases h
        · intro hi r3 h3
          cases h3
          have := hi r hr
          simp only []
          omega

/-- Helper: the write-ready handler satisfies the package. -/
lemma write_ready_POK (d : Dev) :
    POK d (sdhci_data_stage_write_ready_locked d) := by
  rcases hr : d.req with - | r
  · simp only [sdhci_data_stage_write_ready_locked, hr]
    exact POK_of_req_eq d d rfl
  · simp only [sdhci_data_stage_write_ready_locked, hr]
    by_cases hend : r.blockid + 1 = r.blockcount
    · rw [if_pos hend]
      refine POK_complete _ _ _ _ _ _ hr ?_
      intro r2 hr2
      cases hr2
      refine ⟨?_, ?_, ?_⟩
      · intro _
        refine ⟨rfl, ?_⟩
        rw [(mark_fields _ _ _).2.1, (mark_fields _ _ _).2.2]
        exact hend
      · intro h
        cases h
      · intro h
        cases h
    · rw [if_neg hend]
      refine ⟨?_, by simp, by simp, ?_, by simp⟩
      · intro h
        rw [hr] at h
        cases h
      · intro hi r3 h3
        cases h3
        have := hi r hr
        simp only []
        omega

/-- Helper: the transfer-complete handler satisfies the package. -/
lemma transfer_complete_POK (d : Dev) :
    POK d (sdhci_transfer_complete_locked d) := by
  rcases hr : d.req with - | r
  · simp only [sdhci_transfer_complete_locked, hr]
    exact POK_of_req_eq d d rfl
  · simp only [sdhci_transfer_complete_locked, hr]
    refine POK_complete _ _ _ _ _ _ hr ?_
    intro r2 hr2
    refine ⟨?_, ?_, ?_⟩
    · rintro (h | h) <;> cases h
    · intro h
      cases h
    · intro h
      cases h

/-- Helper: error recovery satisfies the package. -/
lemma error_recovery_POK (d : Dev) :
    POK d (sdhci_error_recovery_locked d) := by
  unfold sdhci_error_recovery_locked
  rcases hr : d.req with - | r
  · simp only [hr]
    refine POK_of_req_eq d _ ?_
    rw [hr]
  · simp only [hr]
    refine POK_complete _ _ _ _ _ _ hr ?_
    intro r2 hr2
    refine ⟨?_, ?_, ?_⟩
    · rintro (h | h) <;> cases h
    · intro h
      cases h
    · intro _
      exact ⟨rfl, rfl⟩

/-- Helper: guarding a packaged handler with an interrupt-bit test keeps
the package. -/
lemma POK_guard (c : Prop) [Decidable c] (f : Dev → Dev × List Completion)
    (hf : ∀ d, POK d (f d)) :
    ∀ d, POK d (if c then f d else (d, [])) := by
  intro d
  by_cases hc : c
  · rw [if_pos hc]
    exact hf d
  · rw [if_neg hc]
    exact POK_of_req_eq d d rfl

/-- Helper: sequencing a packaged prefix with a packaged handler keeps
the package. -/
lemma POK_seq (d0 : Dev) (p : Dev × List Completion)
    (f : Dev → Dev × List Completion) (hp : POK d0 p)
    (hf : ∀ d, POK d (f d)) :
    POK d0 ((f p.1).1, p.2 ++ (f p.1).2) := by
  obtain ⟨p1, p2, p3, p4, p5⟩ := hp
  obtain ⟨f1, f2, f3, f4, f5⟩ := hf p.1
  refine ⟨?_, ?_, ?_, ?_, ?_⟩
  · intro h
    obtain ⟨he, hn⟩ := p1 h
    obtain ⟨he2, hn2⟩ := f1 hn
    exact ⟨by simp [he, he2], hn2⟩
  · intro h
    by_cases hq : (f p.1).2 = []
    · have hp2 : p.2 ≠ [] := by
        intro hcon
        exact h (by rw [hcon, hq]; rfl)
      exact (f1 (p2 hp2)).2
    · exact f2 hq
  · by_cases hp2 : p.2 = []
    · simpa [hp2] using f3
    · have := (f1 (p2 hp2)).1
      rw [this]
      simpa using p3
  · intro hi
    exact f4 (p4 hi)
  · intro c hc
    rcases List.mem_append.mp hc with h | h
    · exact p5 c h
    · exact f5 c h

/-- Helper: every interrupt step satisfies the package. -/
lemma sdhci_irq_step_POK (d : Dev) (irq : Nat) :
    POK d (sdhci_irq_step d irq) := by
  exact POK_seq d _ _
    (POK_seq d _ _
      (POK_seq d _ _
        (POK_seq d _ _
          (POK_seq d _ _
            (POK_of_req_eq d { d with regs := { d.regs with irq := 0 } } rfl)
            (fun d2 => POK_guard _ _ cmd_stage_POK d2))
          (fun d2 => POK_guard _ _ read_ready_POK d2))
        (fun d2 => POK_guard _ _ write_ready_POK d2))
      (fun d2 => POK_guard _ _ transfer_complete_POK d2))
    (fun d2 => POK_guard _ _ error_recovery_POK d2)

/-- Helper: every interrupt run satisfies the package. -/
lemma sdhci_irq_run_POK : ∀ (es : List Nat) (d : Dev),
    POK d (sdhci_irq_run d es) := by
  intro es
  induction es with
  | nil => intro d; exact POK_of_req_eq d d rfl
  | cons e es ih =>
      intro d
      exact POK_seq d (sdhci_irq_step d e) (fun d2 => sdhci_irq_run d2 es)
        (sdhci_irq_step_POK d e) ih

/-- Claim C5, counterexample: a submitted data-phase read request with
block count 0 (which the submission path accepts), delivered the single
buffer-read-ready interrupt, is never completed — the completion list is
empty — and its block index advances to 1, strictly above its block
count; both the exactly-once part and the block index at most block
count invariant of the claim fail on this request and event sequence. -/
theorem transfer_automaton_counterexample :
    (sdhci_irq_run
      { regs := ⟨0, 0, 0, 0, 0, 0, 0, 0, 0, 0, 0, 0, 0, 0, 0, 0, 0⟩,
        req := some ⟨SDMMC_CMD_READ ||| SDMMC_RESP_DATA_PRESENT, 0, 0, 4, 0, [],
          some ⟨0, 0, ZxStatus.ok, [], 0⟩⟩,
        caps := 0, quirks := 0, descs := [], iobufPhys := 0, base_clock := 0 }
      [SDHCI_IRQ_BUFF_READ_READY]).2 = [] ∧
    ((sdhci_irq_run
      { regs := ⟨0, 0, 0, 0, 0, 0, 0, 0, 0, 0, 0, 0, 0, 0, 0, 0, 0⟩,
        req := some ⟨SDMMC_CMD_READ ||| SDMMC_RESP_DATA_PRESENT, 0, 0, 4, 0, [],
          some ⟨0, 0, ZxStatus.ok, [], 0⟩⟩,
        caps := 0, quirks := 0, descs := [], iobufPhys := 0, base_clock := 0 }
      [SDHCI_IRQ_BUFF_READ_READY]).1.req.map Req.blockid = some 1 ∧
     (sdhci_irq_run
      { regs := ⟨0, 0, 0, 0, 0, 0, 0, 0, 0, 0, 0, 0, 0, 0, 0, 0, 0⟩,
        req := some ⟨SDMMC_CMD_READ ||| SDMMC_RESP_DATA_PRESENT, 0, 0, 4, 0, [],
          some ⟨0, 0, ZxStatus.ok, [], 0⟩⟩,
        caps := 0, quirks := 0, descs := [], iobufPhys := 0, base_clock := 0 }
      [SDHCI_IRQ_BUFF_READ_READY]).1.req.map Req.blockcount = some 0) := by
  decide

/-- Claim C5, amended: for a submitted request whose block cursor starts
strictly below its block count, and any sequence of interrupt words, the
completion callback is invoked at most once (never again once the
in-flight reference clears); the invariant block index at most block
count holds after every prefix of the sequence; and every completion is
emitted at the claimed point: buffer-read/write completions succeed
exactly when block index has reached block count, command-phase
completions are zero-byte successes of no-data commands, and
error-recovery completions carry the I/O error.  The original
every-sequence exactly-once claim and the unconditional invariant fail:
with block count 0 a data request is never completed and overruns the
bound (see the counterexample). -/
theorem transfer_automaton_spec (dev : Dev) (r : Req) (evs : List Nat)
    (hreq : dev.req = some r) (hlt : r.blockid < r.blockcount) :
    (sdhci_irq_run dev evs).2.length ≤ 1 ∧
    (∀ evs₁ evs₂, evs = evs₁ ++ evs₂ →
      ∀ r2, (sdhci_irq_run dev evs₁).1.req = some r2 →
        r2.blockid ≤ r2.blockcount) ∧
    (∀ c ∈ (sdhci_irq_run dev evs).2,
      ((c.src = CompletionSource.readStage ∨
        c.src = CompletionSource.writeStage) →
        c.status = ZxStatus.ok ∧ c.req.blockid = c.req.blockcount) ∧
      (c.src = CompletionSource.cmdStage →
        c.status = ZxStatus.ok ∧ c.actual = 0 ∧
        c.req.cmd &&& SDMMC_RESP_DATA_PRESENT = 0) ∧
      (c.src = CompletionSource.errRecovery →
        c.status = ZxStatus.ioError ∧ c.actual = 0)) := by
  have hInv : InvD dev := by
    intro r2 h2
    rw [hreq] at h2
    cases h2
    exact hlt
  refine ⟨(sdhci_irq_run_POK evs dev).2.2.1, ?_, ?_⟩
  · intro evs₁ evs₂ _ r2 h2
    have := ((sdhci_irq_run_POK evs₁ dev).2.2.2.1 hInv) r2 h2
    omega
  · exact (sdhci_irq_run_POK evs dev).2.2.2.2

/-- Claim C5, witness: the amended theorem applied to a single-block read
receiving one buffer-read-ready interrupt. -/
theorem transfer_automaton_spec_witness :
    (sdhci_irq_run
      { regs := ⟨0, 0, 0, 0, 0, 0, 0, 0, 0, 0, 0, 0, 0, 0, 0, 0, 0⟩,
        req := some ⟨SDMMC_CMD_READ ||| SDMMC_RESP_DATA_PRESENT, 0, 1, 4, 0, [],
          some ⟨4, 0, ZxStatus.ok, [], 0⟩⟩,
        caps := 0, quirks := 0, descs := [], iobufPhys := 0, base_clock := 0 }
      [SDHCI_IRQ_BUFF_READ_READY]).2.length ≤ 1 :=
  (transfer_automaton_spec _
    ⟨SDMMC_CMD_READ ||| SDMMC_RESP_DATA_PRESENT, 0, 1, 4, 0, [],
      some ⟨4, 0, ZxStatus.ok, [], 0⟩⟩ _ rfl (by decide)).1

/-- Claim C10, witness: a data-phase request with no attached buffer
submitted to an idle controller fails with the invalid-argument status
while the in-flight reference stays set to it, and a follow-up
submission is rejected with the busy signal. -/
theorem submit_records_inflight_spec_witness :
    sdhci_request
      { regs := ⟨0, 0, 0, 0, 0, 0, 0, 0, 0, 0, 0, 0, 0, 0, 0, 0, 0⟩,
        req := none, caps := 0, quirks := 0, descs := [], iobufPhys := 0,
        base_clock := 0 }
      ⟨SDMMC_RESP_DATA_PRESENT, 0, 1, 512, 0, [], none⟩ =
      some (ZxStatus.invalidArgs,
        { regs := ⟨0, 0, 0, 0, 0, 0, 0, 0, 0, 0, 0, 0, 0, 0, 0, 0, 0⟩,
          req := some ⟨SDMMC_RESP_DATA_PRESENT, 0, 1, 512, 0, [], none⟩,
          caps := 0, quirks := 0, descs := [], iobufPhys := 0,
          base_clock := 0 }) ∧
    sdhci_request
      { regs := ⟨0, 0, 0, 0, 0, 0, 0, 0, 0, 0, 0, 0, 0, 0, 0, 0, 0⟩,
        req := some ⟨SDMMC_RESP_DATA_PRESENT, 0, 1, 512, 0, [], none⟩,
        caps := 0, quirks := 0, descs := [], iobufPhys := 0,
        base_clock := 0 }
      ⟨0, 0, 0, 0, 0, [], none⟩ =
      some (ZxStatus.shouldWait,
        { regs := ⟨0, 0, 0, 0, 0, 0, 0, 0, 0, 0, 0, 0, 0, 0, 0, 0, 0⟩,
          req := some ⟨SDMMC_RESP_DATA_PRESENT, 0, 1, 512, 0, [], none⟩,
          caps := 0, quirks := 0, descs := [], iobufPhys := 0,
          base_clock := 0 }) := by
  have h := submit_records_inflight_spec
    { regs := ⟨0, 0, 0, 0, 0, 0, 0, 0, 0, 0, 0, 0, 0, 0, 0, 0, 0⟩,
      req := none, caps := 0, quirks := 0, descs := [], iobufPhys := 0,
      base_clock := 0 }
    ⟨SDMMC_RESP_DATA_PRESENT, 0, 1, 512, 0, [], none⟩ rfl
  exact ⟨h.1 (by decide) rfl,
    h.2.2 _ ⟨SDMMC_RESP_DATA_PRESENT, 0, 1, 512, 0, [], none⟩
      ⟨0, 0, 0, 0, 0, [], none⟩ rfl⟩
